import Mathlib

/-!
Shallow embedding of the guestbook backend (`src/index.js`).

The program is a small Express/SQLite guestbook: visitors submit
name/message entries, entries start `pending`, an admin approves or
rejects them through token-protected links, and `GET /api/entries`
serves only approved entries.  This file embeds the data model
(the `entries` table), the prepared SQL statements, the text
normalization, the HTML escaping, the admin token check and the
HTTP handlers as pure Lean functions, and proves the specified
properties about them.

Modelling conventions:
* JavaScript strings are Lean `String`s, with whitespace handling done
  on the underlying `List Char` (`String.trim` and friends do not
  reduce well, and the JS semantics is per-character anyway).
* Possibly-`undefined` values (`req.body?.name`, missing query
  parameters, unset environment variables) are `Option String`.
* `Number(x)` is modelled on optional-sign decimal integer strings
  (the shapes that occur as entry ids); every other string maps to
  `none`, standing for `NaN`.  Fractional/hex/exponent literals are
  outside the model.
* The SQLite table is a `Store`: the list of rows plus the next
  AUTOINCREMENT id.  `ORDER BY id DESC` is modelled by
  `List.insertionSort` on the descending-id relation.
* The mail transport is an oracle `Except String Unit` passed to the
  submission handler: `Except.error` is a throwing `sendMail`.
-/

namespace Guestbook

/-- JS `String(x || "")` for a possibly-undefined string value:
`undefined`/`null` and the empty string are falsy and give `""`. -/
def jsStrOrEmpty : Option String → String
  | none => ""
  | some s => s

/-- The whitespace class used by JS `trim()` and the `/\s/` regex,
restricted to the ASCII whitespace characters relevant here. -/
def isJsWs (c : Char) : Bool := c.isWhitespace

/-- JS `String.prototype.trim` on the character list: drop leading and
trailing whitespace. -/
def jsTrim (l : List Char) : List Char :=
  ((l.dropWhile isJsWs).reverse.dropWhile isJsWs).reverse

/-- `s.replace(/\s+/g, " ")`: every maximal run of whitespace characters
becomes a single space. -/
def collapseWs : List Char → List Char
  | [] => []
  | [c] => [if isJsWs c then ' ' else c]
  | c :: d :: rest =>
    if isJsWs c && isJsWs d then collapseWs (d :: rest)
    else (if isJsWs c then ' ' else c) :: collapseWs (d :: rest)

/-- `cleanText(str, maxLen)` from `src/index.js`:
`String(str || "").trim()`; empty is returned as `""`; otherwise
`s.replace(/\s+/g, " ").slice(0, maxLen)`. -/
def cleanText (str : Option String) (maxLen : Nat) : String :=
  let s := jsTrim (jsStrOrEmpty str).data
  if s.isEmpty then "" else String.mk ((collapseWs s).take maxLen)

/-- Moderation status of an entry (`status` column):
`pending | approved | rejected`. -/
inductive Status where
  | pending
  | approved
  | rejected
  deriving DecidableEq, Repr

/-- A row of the `entries` table. -/
structure Entry where
  id : Nat
  name : String
  message : String
  status : Status
  created_at : String
  deriving DecidableEq, Repr

/-- The persistent store: the `entries` table plus the next
AUTOINCREMENT id (SQLite row ids start at 1). -/
structure Store where
  entries : List Entry
  nextId : Nat
  deriving DecidableEq, Repr

/-- The projection returned by the public listing:
`SELECT id, name, message, created_at`. -/
structure PublicRow where
  id : Nat
  name : String
  message : String
  created_at : String
  deriving DecidableEq, Repr

/-- Project an entry to the public columns. -/
def publicProj (e : Entry) : PublicRow :=
  ⟨e.id, e.name, e.message, e.created_at⟩

/-- `ORDER BY id DESC`: `a` comes before `b` when `b.id ≤ a.id`. -/
def byIdDesc (a b : Entry) : Prop := b.id ≤ a.id

instance : DecidableRel byIdDesc := fun a b => Nat.decLe b.id a.id

instance : IsTotal Entry byIdDesc := ⟨fun a b => Nat.le_total b.id a.id⟩

instance : IsTrans Entry byIdDesc := ⟨fun _ _ _ hab hbc => Nat.le_trans hbc hab⟩

/-- `stmtInsert`: `INSERT INTO entries (name, message, status, created_at)
VALUES (@name, @message, 'pending', @created_at)`; returns
`lastInsertRowid` and the new store. -/
def stmtInsert (st : Store) (name message created_at : String) : Nat × Store :=
  (st.nextId,
   ⟨st.entries ++ [⟨st.nextId, name, message, Status.pending, created_at⟩],
    st.nextId + 1⟩)

/-- `stmtApproved`: `SELECT id, name, message, created_at FROM entries
WHERE status='approved' ORDER BY id DESC LIMIT 50`. -/
def stmtApproved (st : Store) : List PublicRow :=
  ((((st.entries.filter (fun e => decide (e.status = Status.approved))).insertionSort
      byIdDesc).take 50).map publicProj)

/-- `stmtPending`: `SELECT id, name, message, status, created_at FROM
entries WHERE status='pending' ORDER BY id DESC`. -/
def stmtPending (st : Store) : List Entry :=
  (st.entries.filter (fun e => decide (e.status = Status.pending))).insertionSort byIdDesc

/-- `stmtSetStatus`: `UPDATE entries SET status=@status WHERE id=@id`.
The id parameter is an `Int` because the handlers pass `Number(req.query.id)`. -/
def stmtSetStatus (st : Store) (id : Int) (status : Status) : Store :=
  ⟨st.entries.map (fun e => if (e.id : Int) = id then { e with status := status } else e),
   st.nextId⟩

/-! ### Admin token check (`requireAdmin`) -/

/-- The bearer part of `requireAdmin`:
`req.headers.authorization && req.headers.authorization.startsWith("Bearer ")
? req.headers.authorization.slice(7) : null`.
An empty header is falsy in JS, hence `none`. -/
def bearerToken : Option String → Option String
  | none => none
  | some a =>
    if a = "" then none
    else if ("Bearer ".data).isPrefixOf a.data then some (String.mk (a.data.drop 7))
    else none

/-- The presented token: `req.query.token || bearerToken`; an empty query
token is falsy and falls through to the header. -/
def presentedToken (queryTok authHeader : Option String) : Option String :=
  match queryTok with
  | some t => if t = "" then bearerToken authHeader else some t
  | none => bearerToken authHeader

/-- `requireAdmin` passes iff the presented token is exactly
(`!==`-wise) the configured admin token. -/
def requireAdmin (adminToken : String) (queryTok authHeader : Option String) : Bool :=
  decide (presentedToken queryTok authHeader = some adminToken)

/-! ### `Number(req.query.id)` and its truthiness check -/

/-- Value of a nonempty all-digit decimal string; `none` on a non-digit
or on the empty list (matching `Number`, which yields `NaN` there). -/
def decDigitsVal : List Char → Option Nat
  | [] => none
  | l =>
    l.foldl
      (fun acc c =>
        match acc with
        | none => none
        | some n => if c.isDigit then some (n * 10 + (c.toNat - 48)) else none)
      (some 0)

/-- `Number(x)` for a possibly-absent query string, on the model's
domain of optional-sign decimal integer literals.  `none` is `NaN`
(`Number(undefined)`); whitespace-only strings give `0`.  Fractional,
hex and exponent literals are outside the model and map to `NaN`. -/
def jsNumber : Option String → Option Int
  | none => none
  | some raw =>
    match jsTrim raw.data with
    | [] => some 0
    | c :: rest =>
      if c = '-' then (decDigitsVal rest).map (fun n => -(n : Int))
      else if c = '+' then (decDigitsVal rest).map (fun n => (n : Int))
      else (decDigitsVal (c :: rest)).map (fun n => (n : Int))

/-- JS falsiness of a number: `NaN` and `0` are falsy (`if (!id) ...`). -/
def jsNumFalsy : Option Int → Bool
  | none => true
  | some n => decide (n = 0)

/-! ### HTML escaping and the moderation mail body -/

/-- The apostrophe character (U+0027). -/
def apos : Char := Char.ofNat 39

/-- JS `String.prototype.replaceAll` for a single-character pattern:
every occurrence of `pat` becomes `rep`. -/
def replaceAllChar (s : String) (pat : Char) (rep : String) : String :=
  String.mk (s.data.flatMap (fun c => if c = pat then rep.data else [c]))

/-- `escapeHtml` from `src/index.js`: the chained `replaceAll`s, ampersand
first. -/
def escapeHtml (str : String) : String :=
  replaceAllChar
    (replaceAllChar
      (replaceAllChar
        (replaceAllChar
          (replaceAllChar str '&' "&amp;")
          '<' "&lt;")
        '>' "&gt;")
      '"' "&quot;")
    apos "&#039;"

/-- Static template text of `buildMailHtml` before `${escapeHtml(name)}`
(the template literal's `.trim()`, which only strips the static leading
newline, is pre-applied). -/
def mailChunk1 : String :=
  "<div style=\"font-family:system-ui,-apple-system,Segoe UI,Roboto,Ubuntu,Cantarell,Noto Sans,sans-serif;font-size:14px;line-height:1.5;color:#111827\">\n  <h2 style=\"margin:0 0 10px 0;font-size:18px;\">🧱 Neuer Gästebuch-Eintrag (Freigabe nötig)</h2>\n\n  <p style=\"margin:0 0 10px 0;\">\n    Ein neuer Eintrag wurde eingereicht und wartet auf deine Freigabe.\n  </p>\n\n  <div style=\"border:1px solid #e5e7eb;border-radius:12px;padding:12px;background:#f9fafb;margin:12px 0;\">\n    <p style=\"margin:0 0 6px 0;\"><strong>Name:</strong> "

/-- Static template text between `${escapeHtml(name)}` and
`${escapeHtml(message)}`. -/
def mailChunk2 : String :=
  "</p>\n    <p style=\"margin:0 0 6px 0;\"><strong>Nachricht:</strong><br>"

/-- Static template text between `${escapeHtml(message)}` and
`${escapeHtml(created_at)}`. -/
def mailChunk3 : String :=
  "</p>\n    <p style=\"margin:0;\"><strong>Zeit:</strong> "

/-- Static template text between `${escapeHtml(created_at)}` and
`${approve_url}`. -/
def mailChunk4 : String :=
  "</p>\n  </div>\n\n  <p style=\"margin:14px 0 6px 0;\"><strong>✅ Freigeben:</strong></p>\n  <p style=\"margin:0 0 10px 0;\">\n    <a href=\""

/-- Static template text between `${approve_url}` and `${reject_url}`. -/
def mailChunk5 : String :=
  "\" style=\"display:inline-block;background:#16a34a;color:white;text-decoration:none;padding:10px 14px;border-radius:10px;font-weight:700;\">\n      Eintrag freigeben\n    </a>\n  </p>\n\n  <p style=\"margin:10px 0 6px 0;\"><strong>❌ Ablehnen/Löschen:</strong></p>\n  <p style=\"margin:0 0 14px 0;\">\n    <a href=\""

/-- Static template text after `${reject_url}` (the trailing `.trim()`
is pre-applied). -/
def mailChunk6 : String :=
  "\" style=\"display:inline-block;background:#dc2626;color:white;text-decoration:none;padding:10px 14px;border-radius:10px;font-weight:700;\">\n      Eintrag ablehnen\n    </a>\n  </p>\n\n  <p style=\"margin:0;color:#6b7280;font-size:12px;\">\n    Hinweis: Bitte nur klicken, wenn du den Eintrag wirklich so veröffentlichen willst.\n  </p>\n</div>"

/-- `buildMailHtml` from `src/index.js`: the static chunks of the
template literal alternate with `escapeHtml(name)`,
`escapeHtml(message)`, `escapeHtml(created_at)` and the two raw action
URLs, in source order. -/
def buildMailHtml (name message created_at approve_url reject_url : String) : String :=
  mailChunk1 ++ escapeHtml name ++ mailChunk2 ++ escapeHtml message ++ mailChunk3 ++
    escapeHtml created_at ++ mailChunk4 ++ approve_url ++ mailChunk5 ++ reject_url ++
    mailChunk6

/-! ### SMTP configuration and the notifier -/

/-- The three environment variables the notifier needs. -/
structure SmtpEnv where
  host : Option String
  user : Option String
  pass : Option String
  deriving DecidableEq, Repr

/-- `hasSmtp()`: each of `SMTP_HOST`, `SMTP_USER`, `SMTP_PASS` must be
non-empty after `String(x || "").trim()`. -/
def hasSmtp (env : SmtpEnv) : Bool :=
  !(jsTrim (jsStrOrEmpty env.host).data).isEmpty &&
  !(jsTrim (jsStrOrEmpty env.user).data).isEmpty &&
  !(jsTrim (jsStrOrEmpty env.pass).data).isEmpty

/-- Outcome of `sendModerationMail(entry)`: early `return` (success,
nothing sent) when SMTP is unconfigured, otherwise the transport's
outcome, supplied as an oracle (`Except.error` = `sendMail` threw). -/
def sendModerationMail (env : SmtpEnv) (transport : Except String Unit) : Except String Unit :=
  if hasSmtp env then transport else Except.ok ()

/-! ### HTTP handlers -/

/-- Response of the JSON API (`POST /api/entries`). -/
structure ApiResp where
  status : Nat
  ok : Bool
  id? : Option Nat
  error? : Option String
  deriving DecidableEq, Repr

/-- Plain-text response (admin approve/reject endpoints). -/
structure TextResp where
  status : Nat
  body : String
  deriving DecidableEq, Repr

/-- `GET /api/entries`: `res.json(stmtApproved.all())`. -/
def getEntries (st : Store) : List PublicRow := stmtApproved st

/-- `POST /api/entries`.  Returns the response, the new store, and the
log lines produced by the mail step (the `try { … } catch` around
`sendModerationMail` swallows transport failures into a log line). -/
def postEntries (env : SmtpEnv) (transport : Except String Unit)
    (bodyName bodyMessage : Option String) (now : String) (st : Store) :
    ApiResp × Store × List String :=
  let name := cleanText bodyName 40
  let message := cleanText bodyMessage 400
  if name = "" ∨ message = "" then
    (⟨400, false, none, some "Name und Nachricht sind Pflicht."⟩, st, [])
  else
    let inserted := stmtInsert st name message now
    let log :=
      match sendModerationMail env transport with
      | Except.ok _ => ["✉️  Moderations-Mail gesendet für Eintrag #" ++ toString inserted.1]
      | Except.error e => ["Mail error: " ++ e]
    (⟨200, true, some inserted.1, none⟩, inserted.2, log)

/-- `GET /admin/pending`: `requireAdmin` then `res.json(stmtPending.all())`.
The response is the status code and, on success, the rows. -/
def adminPending (adminToken : String) (queryTok authHeader : Option String)
    (st : Store) : (Nat × Option (List Entry)) × Store :=
  if !requireAdmin adminToken queryTok authHeader then ((401, none), st)
  else ((200, some (stmtPending st)), st)

/-- `GET /admin/approve`: `requireAdmin`, then `const id = Number(req.query.id);
if (!id) return 400; stmtSetStatus.run({id, status:"approved"})`. -/
def adminApprove (adminToken : String) (queryTok authHeader queryId : Option String)
    (st : Store) : TextResp × Store :=
  if !requireAdmin adminToken queryTok authHeader then (⟨401, "Unauthorized"⟩, st)
  else
    match jsNumber queryId with
    | none => (⟨400, "Missing id"⟩, st)
    | some n =>
      if n = 0 then (⟨400, "Missing id"⟩, st)
      else (⟨200, "✅ Freigegeben. Du kannst das Fenster schließen."⟩,
            stmtSetStatus st n Status.approved)

/-- `GET /admin/reject`: same as approve with `status:"rejected"`. -/
def adminReject (adminToken : String) (queryTok authHeader queryId : Option String)
    (st : Store) : TextResp × Store :=
  if !requireAdmin adminToken queryTok authHeader then (⟨401, "Unauthorized"⟩, st)
  else
    match jsNumber queryId with
    | none => (⟨400, "Missing id"⟩, st)
    | some n =>
      if n = 0 then (⟨400, "Missing id"⟩, st)
      else (⟨200, "🗑️ Abgelehnt. Du kannst das Fenster schließen."⟩,
            stmtSetStatus st n Status.rejected)

/-! ### Specification-side views used by the theorems -/

/-- Per-character view of the five chained `replaceAll`s of `escapeHtml`:
each special character becomes its entity, every other character stays. -/
def escChar (c : Char) : List Char :=
  if c = '&' then ['&', 'a', 'm', 'p', ';']
  else if c = '<' then ['&', 'l', 't', ';']
  else if c = '>' then ['&', 'g', 't', ';']
  else if c = '"' then ['&', 'q', 'u', 'o', 't', ';']
  else if c = apos then ['&', '#', '0', '3', '9', ';']
  else [c]

/-- `ys` (the text following an ampersand) starts with the body of one of
the five entities `amp; lt; gt; quot; #039;`. -/
def EntityTail (ys : List Char) : Prop :=
  ['a', 'm', 'p', ';'] <+: ys ∨ ['l', 't', ';'] <+: ys ∨ ['g', 't', ';'] <+: ys ∨
  ['q', 'u', 'o', 't', ';'] <+: ys ∨ ['#', '0', '3', '9', ';'] <+: ys

/-- Every occurrence of `'&'` in `l` begins one of the five entities. -/
def AmpOk (l : List Char) : Prop :=
  ∀ xs ys, l = xs ++ '&' :: ys → EntityTail ys

-- sanity checks on the embedding (kernel-evaluable)
example : cleanText (some "  A   B  ") 40 = "A B" := by decide
example : cleanText (some "   ") 40 = "" := by decide
example : jsNumber (some "-3") = some (-3) := by decide
example : jsNumber (some "") = some 0 := by decide
example : jsNumber none = none := by decide
example : jsNumber (some "12x") = none := by decide
example : presentedToken (some "") (some "Bearer s") = some "s" := by decide
example : escapeHtml "a<b&c" = "a&lt;b&amp;c" := by decide
example :
    stmtApproved ⟨[⟨1, "a", "m", Status.approved, "t"⟩,
                   ⟨2, "b", "m", Status.pending, "t"⟩,
                   ⟨3, "c", "m", Status.approved, "t"⟩], 4⟩ =
      [⟨3, "c", "m", "t"⟩, ⟨1, "a", "m", "t"⟩] := by decide

/-! ### Helper lemmas -/

/-- A failed validation leaves the store unchanged and returns the 400 body. -/
lemma postEntries_reject_eq (env : SmtpEnv) (tr : Except String Unit)
    (n m : Option String) (now : String) (st : Store)
    (hcond : cleanText n 40 = "" ∨ cleanText m 400 = "") :
    postEntries env tr n m now st =
      (⟨400, false, none, some "Name und Nachricht sind Pflicht."⟩, st, []) := by
  simp only [postEntries, if_pos hcond]

/-- A passing validation inserts the cleaned entry and answers 200/ok. -/
lemma postEntries_accept_resp_store (env : SmtpEnv) (tr : Except String Unit)
    (n m : Option String) (now : String) (st : Store)
    (hn : cleanText n 40 ≠ "") (hm : cleanText m 400 ≠ "") :
    (postEntries env tr n m now st).1 = ⟨200, true, some st.nextId, none⟩ ∧
    (postEntries env tr n m now st).2.1 =
      ⟨st.entries ++ [⟨st.nextId, cleanText n 40, cleanText m 400, Status.pending, now⟩],
       st.nextId + 1⟩ := by
  have hcond : ¬(cleanText n 40 = "" ∨ cleanText m 400 = "") := by
    rintro (h | h) <;> [exact hn h; exact hm h]
  simp [postEntries, if_neg hcond, stmtInsert]

/-- The cleaned entry is a member of the store after a passing submission. -/
lemma postEntries_accept_mem (env : SmtpEnv) (tr : Except String Unit)
    (n m : Option String) (now : String) (st : Store)
    (hn : cleanText n 40 ≠ "") (hm : cleanText m 400 ≠ "") :
    (⟨st.nextId, cleanText n 40, cleanText m 400, Status.pending, now⟩ : Entry) ∈
      (postEntries env tr n m now st).2.1.entries := by
  rw [(postEntries_accept_resp_store env tr n m now st hn hm).2]
  exact List.mem_append_right _ (List.mem_singleton.mpr rfl)

/-! ### Claim theorems -/

/-- Claim C1: for every state of the entry store, the public listing
(`GET /api/entries`) returns only rows that are the `{id, name, message,
created_at}` projection of an approved entry, ordered by id descending,
and capped at 50 rows. -/
theorem apiEntries_approved_sorted_capped (st : Store) :
    (∀ r ∈ getEntries st, ∃ e ∈ st.entries, e.status = Status.approved ∧ r = publicProj e) ∧
    List.Sorted (fun a b : PublicRow => b.id ≤ a.id) (getEntries st) ∧
    (getEntries st).length ≤ 50 := by
  refine ⟨?_, ?_, ?_⟩
  · intro r hr
    simp only [getEntries, stmtApproved, List.mem_map] at hr
    obtain ⟨e, he, rfl⟩ := hr
    have he2 := List.take_subset 50 _ he
    rw [List.mem_insertionSort, List.mem_filter] at he2
    exact ⟨e, he2.1, by simpa using he2.2, rfl⟩
  · have hs := List.sorted_insertionSort byIdDesc
      (st.entries.filter (fun e => decide (e.status = Status.approved)))
    have ht : List.Pairwise byIdDesc
        (((st.entries.filter (fun e => decide (e.status = Status.approved))).insertionSort
          byIdDesc).take 50) :=
      List.Pairwise.sublist (List.take_sublist 50 _) hs
    exact ht.map publicProj (fun a b hab => hab)
  · simp only [getEntries, stmtApproved, List.length_map, List.length_take]
    omega

/-- Witness for C1 at a concrete one-entry store. -/
theorem apiEntries_approved_sorted_capped_witness :
    ∃ e ∈ (⟨[⟨1, "Alice", "Hi", Status.approved, "t"⟩], 2⟩ : Store).entries,
      e.status = Status.approved ∧ (⟨1, "Alice", "Hi", "t"⟩ : PublicRow) = publicProj e :=
  (apiEntries_approved_sorted_capped ⟨[⟨1, "Alice", "Hi", Status.approved, "t"⟩], 2⟩).1
    ⟨1, "Alice", "Hi", "t"⟩ (by decide)

/-- Claim C2: a submission whose name or message is empty after
normalization gets a 400 with `ok:false` and leaves the store unchanged;
a submission with both fields non-empty persists a pending entry and
returns its id with `ok:true`. -/
theorem postEntries_validation (env : SmtpEnv) (tr : Except String Unit)
    (n m : Option String) (now : String) (st : Store) :
    (cleanText n 40 = "" ∨ cleanText m 400 = "" →
      postEntries env tr n m now st =
        (⟨400, false, none, some "Name und Nachricht sind Pflicht."⟩, st, [])) ∧
    (cleanText n 40 ≠ "" → cleanText m 400 ≠ "" →
      (postEntries env tr n m now st).1 = ⟨200, true, some st.nextId, none⟩ ∧
      (⟨st.nextId, cleanText n 40, cleanText m 400, Status.pending, now⟩ : Entry) ∈
        (postEntries env tr n m now st).2.1.entries) := by
  exact ⟨postEntries_reject_eq env tr n m now st,
    fun hn hm => ⟨(postEntries_accept_resp_store env tr n m now st hn hm).1,
      postEntries_accept_mem env tr n m now st hn hm⟩⟩

/-- Witness for C2: a whitespace-only name is rejected without mutation,
and a concrete valid submission is persisted. -/
theorem postEntries_validation_witness :
    postEntries ⟨none, none, none⟩ (Except.ok ()) (some "   ") (some "Hi") "t" ⟨[], 1⟩ =
      (⟨400, false, none, some "Name und Nachricht sind Pflicht."⟩, (⟨[], 1⟩ : Store), []) ∧
    (⟨1, "Al", "Hi", Status.pending, "t"⟩ : Entry) ∈
      (postEntries ⟨none, none, none⟩ (Except.ok ()) (some "Al") (some "Hi") "t"
        ⟨[], 1⟩).2.1.entries := by
  constructor
  · exact (postEntries_validation ⟨none, none, none⟩ (Except.ok ()) (some "   ") (some "Hi")
      "t" ⟨[], 1⟩).1 (by decide)
  · exact (postEntries_validation ⟨none, none, none⟩ (Except.ok ()) (some "Al") (some "Hi")
      "t" ⟨[], 1⟩).2 (by decide) (by decide) |>.2

/-- Claim C3: any admin operation presented with an absent token or one
not string-equal to the admin secret answers 401 and mutates nothing;
the token is read from the query parameter or a Bearer header. -/
theorem admin_unauthorized_no_mutation (tok : String) (q h qId : Option String) (st : Store)
    (hauth : presentedToken q h ≠ some tok) :
    adminPending tok q h st = ((401, none), st) ∧
    adminApprove tok q h qId st = (⟨401, "Unauthorized"⟩, st) ∧
    adminReject tok q h qId st = (⟨401, "Unauthorized"⟩, st) := by
  have hr : requireAdmin tok q h = false := by
    simp [requireAdmin, hauth]
  refine ⟨?_, ?_, ?_⟩ <;> simp [adminPending, adminApprove, adminReject, hr]

/-- Witness for C3 at a concrete wrong token. -/
theorem admin_unauthorized_no_mutation_witness :
    adminApprove "secret" (some "wrong") none (some "1")
        (⟨[⟨1, "n", "m", Status.pending, "t"⟩], 2⟩ : Store) =
      (⟨401, "Unauthorized"⟩, (⟨[⟨1, "n", "m", Status.pending, "t"⟩], 2⟩ : Store)) :=
  (admin_unauthorized_no_mutation "secret" (some "wrong") none (some "1")
    ⟨[⟨1, "n", "m", Status.pending, "t"⟩], 2⟩ (by decide)).2.1

/-- Counterexample to C4 as stated: with a valid token and
`id=-3` — a number, but not a positive one — the approve endpoint
answers 200 with the confirmation body, not 400. -/
theorem approve_negative_id_counterexample :
    jsNumber (some "-3") = some (-3) ∧ (-3 : Int) < 0 ∧
    (adminApprove "s" (some "s") none (some "-3") ⟨[], 1⟩).1 =
      ⟨200, "✅ Freigegeben. Du kannst das Fenster schließen."⟩ := by
  decide

/-- Claim C4 (amended): with a valid admin token, approve/reject answer
400 and perform no update exactly when `Number(id)` is `NaN` or `0`
(missing, empty or non-numeric id); for any other number — including
negative ones — the status update runs and the confirmation is
returned. -/
theorem approve_reject_id_validation (tok : String) (q h qId : Option String) (st : Store)
    (hauth : presentedToken q h = some tok) :
    (jsNumFalsy (jsNumber qId) = true →
      adminApprove tok q h qId st = (⟨400, "Missing id"⟩, st) ∧
      adminReject tok q h qId st = (⟨400, "Missing id"⟩, st)) ∧
    (∀ n : Int, jsNumber qId = some n → n ≠ 0 →
      adminApprove tok q h qId st =
        (⟨200, "✅ Freigegeben. Du kannst das Fenster schließen."⟩,
         stmtSetStatus st n Status.approved) ∧
      adminReject tok q h qId st =
        (⟨200, "🗑️ Abgelehnt. Du kannst das Fenster schließen."⟩,
         stmtSetStatus st n Status.rejected)) := by
  have hr : requireAdmin tok q h = true := by
    simp [requireAdmin, hauth]
  constructor
  · intro hf
    cases hn : jsNumber qId with
    | none => simp [adminApprove, adminReject, hr, hn]
    | some k =>
      have hk : k = 0 := by
        have := hf
        rw [hn] at this
        simpa [jsNumFalsy] using this
      subst hk
      simp [adminApprove, adminReject, hr, hn]
  · intro k hn hnz
    simp [adminApprove, adminReject, hr, hn, hnz]

/-- Witness for C4's amended theorem at a concrete valid id. -/
theorem approve_reject_id_validation_witness :
    adminApprove "s" (some "s") none (some "2") (⟨[], 1⟩ : Store) =
      (⟨200, "✅ Freigegeben. Du kannst das Fenster schließen."⟩,
       stmtSetStatus (⟨[], 1⟩ : Store) 2 Status.approved) :=
  ((approve_reject_id_validation "s" (some "s") none (some "2") ⟨[], 1⟩ (by decide)).2
    2 (by decide) (by decide)).1

/-- Claim C5: the stored value is the input trimmed, whitespace-collapsed
and truncated to the field maximum; a name longer than 40 characters
after normalization is stored at exactly 40; and the documented example
normalizes and is stored as stated. -/
theorem cleanText_normalization :
    (∀ (s : Option String) (maxLen : Nat), (cleanText s maxLen).length ≤ maxLen) ∧
    (∀ s : Option String, 40 < (collapseWs (jsTrim (jsStrOrEmpty s).data)).length →
      (cleanText s 40).length = 40) ∧
    cleanText (some "  A   B  ") 40 = "A B" ∧
    cleanText (some "Hello   world") 400 = "Hello world" ∧
    (∀ (env : SmtpEnv) (tr : Except String Unit) (n m : Option String) (now : String)
        (st : Store), cleanText n 40 ≠ "" → cleanText m 400 ≠ "" →
      (⟨st.nextId, cleanText n 40, cleanText m 400, Status.pending, now⟩ : Entry) ∈
        (postEntries env tr n m now st).2.1.entries) ∧
    (⟨1, "A B", "Hello world", Status.pending, "t"⟩ : Entry) ∈
      (postEntries ⟨none, none, none⟩ (Except.ok ()) (some "  A   B  ")
        (some "Hello   world") "t" ⟨[], 1⟩).2.1.entries := by
  refine ⟨?_, ?_, by decide, by decide, ?_, by decide⟩
  · intro s maxLen
    by_cases he : (jsTrim (jsStrOrEmpty s).data).isEmpty
    · simp [cleanText, he]
    · simp only [cleanText, he, if_false, Bool.false_eq_true, String.length_mk,
        List.length_take]
      omega
  · intro s h40
    have hne : (jsTrim (jsStrOrEmpty s).data).isEmpty = false := by
      cases hjt : jsTrim (jsStrOrEmpty s).data with
      | nil => rw [hjt] at h40; simp [collapseWs] at h40
      | cons a l => rfl
    simp only [cleanText, hne, if_false, Bool.false_eq_true, String.length_mk,
      List.length_take]
    omega
  · exact fun env tr n m now st hn hm => postEntries_accept_mem env tr n m now st hn hm

/-- Witness for C5: a 45-character name is truncated to exactly 40. -/
theorem cleanText_normalization_witness :
    (cleanText (some (String.mk (List.replicate 45 'a'))) 40).length = 40 :=
  cleanText_normalization.2.1 (some (String.mk (List.replicate 45 'a'))) (by decide)

/-- Claim C6: an entry whose status is rejected is set to approved by a
subsequent authorized approve request for its id — rejection does not
block a later approve. -/
theorem approve_after_reject (tok : String) (q h qId : Option String) (st : Store)
    (e : Entry) (hauth : presentedToken q h = some tok) (he : e ∈ st.entries)
    (_hrej : e.status = Status.rejected) (hid : jsNumber qId = some (e.id : Int))
    (hnz : (e.id : Int) ≠ 0) :
    (adminApprove tok q h qId (adminReject tok q h qId st).2).1.status = 200 ∧
    { e with status := Status.approved } ∈
      (adminApprove tok q h qId (adminReject tok q h qId st).2).2.entries := by
  have hr : requireAdmin tok q h = true := by
    simp [requireAdmin, hauth]
  have hrej2 : (adminReject tok q h qId st).2 =
      stmtSetStatus st (e.id : Int) Status.rejected := by
    simp [adminReject, hr, hid, hnz]
  have happ : adminApprove tok q h qId (adminReject tok q h qId st).2 =
      (⟨200, "✅ Freigegeben. Du kannst das Fenster schließen."⟩,
       stmtSetStatus (stmtSetStatus st (e.id : Int) Status.rejected) (e.id : Int)
         Status.approved) := by
    rw [hrej2]; simp [adminApprove, hr, hid, hnz]
  rw [happ]
  refine ⟨rfl, ?_⟩
  simp only [stmtSetStatus]
  have heq : { e with status := Status.approved } =
      (fun x => if (x.id : Int) = (e.id : Int) then { x with status := Status.approved } else x)
        ((fun x => if (x.id : Int) = (e.id : Int) then { x with status := Status.rejected } else x)
          e) := by
    simp
  rw [heq]
  exact List.mem_map_of_mem _ (List.mem_map_of_mem _ he)

/-- Witness for C6 at a concrete one-entry store holding a rejected entry. -/
theorem approve_after_reject_witness :
    (⟨1, "n", "m", Status.approved, "t"⟩ : Entry) ∈
      (adminApprove "s" (some "s") none (some "1")
        (adminReject "s" (some "s") none (some "1")
          (⟨[⟨1, "n", "m", Status.rejected, "t"⟩], 2⟩ : Store)).2).2.entries :=
  (approve_after_reject "s" (some "s") none (some "1")
    ⟨[⟨1, "n", "m", Status.rejected, "t"⟩], 2⟩ ⟨1, "n", "m", Status.rejected, "t"⟩
    (by decide) (by decide) (by decide) (by decide) (by decide)).2

/-- Claim C7: the status update is a no-op (not an error) when no entry
has the given id, and approving twice is idempotent — the second approve
returns the same response and leaves the store exactly as after the
first. -/
theorem setStatus_noop_and_approve_idempotent :
    (∀ (st : Store) (id : Int) (s : Status),
      (∀ e ∈ st.entries, (e.id : Int) ≠ id) → stmtSetStatus st id s = st) ∧
    (∀ (tok : String) (q h qId : Option String) (st : Store),
      adminApprove tok q h qId (adminApprove tok q h qId st).2 =
        adminApprove tok q h qId st) := by
  have hidem : ∀ (st : Store) (id : Int) (s : Status),
      stmtSetStatus (stmtSetStatus st id s) id s = stmtSetStatus st id s := by
    intro st id s
    simp only [stmtSetStatus, List.map_map]
    congr 1
    apply List.map_congr_left
    intro e _he
    by_cases hc : (e.id : Int) = id
    · simp [Function.comp, hc]
    · simp [Function.comp, hc]
  constructor
  · intro st id s hno
    obtain ⟨entries, nextId⟩ := st
    simp only [stmtSetStatus, Store.mk.injEq, and_true]
    rw [List.map_congr_left (fun e he => if_neg (hno e he))]
    simp
  · intro tok q h qId st
    cases hr : requireAdmin tok q h with
    | false => simp [adminApprove, hr]
    | true =>
      cases hn : jsNumber qId with
      | none => simp [adminApprove, hr, hn]
      | some k =>
        by_cases hk : k = 0
        · subst hk; simp [adminApprove, hr, hn]
        · simp [adminApprove, hr, hn, hk, hidem]

/-- Witness for C7: updating a missing id is a no-op on a concrete store. -/
theorem setStatus_noop_witness :
    stmtSetStatus (⟨[⟨1, "n", "m", Status.pending, "t"⟩], 2⟩ : Store) 5 Status.approved =
      (⟨[⟨1, "n", "m", Status.pending, "t"⟩], 2⟩ : Store) :=
  setStatus_noop_and_approve_idempotent.1 ⟨[⟨1, "n", "m", Status.pending, "t"⟩], 2⟩ 5
    Status.approved (by decide)

/-- Claim C8: the submission response and the stored entries are
independent of the SMTP configuration and of the transport outcome; an
unconfigured transport makes notification a no-op; and a valid
submission still answers 200 with the new id, the entry persisted. -/
theorem mail_failure_never_blocks (env1 env2 : SmtpEnv) (tr1 tr2 : Except String Unit)
    (n m : Option String) (now : String) (st : Store) :
    ((postEntries env1 tr1 n m now st).1 = (postEntries env2 tr2 n m now st).1 ∧
     (postEntries env1 tr1 n m now st).2.1 = (postEntries env2 tr2 n m now st).2.1) ∧
    (hasSmtp env1 = false → sendModerationMail env1 tr1 = Except.ok ()) ∧
    (cleanText n 40 ≠ "" → cleanText m 400 ≠ "" →
      (postEntries env1 tr1 n m now st).1 = ⟨200, true, some st.nextId, none⟩ ∧
      (⟨st.nextId, cleanText n 40, cleanText m 400, Status.pending, now⟩ : Entry) ∈
        (postEntries env1 tr1 n m now st).2.1.entries) := by
  refine ⟨?_, ?_, ?_⟩
  · by_cases hcond : cleanText n 40 = "" ∨ cleanText m 400 = ""
    · rw [postEntries_reject_eq env1 tr1 n m now st hcond,
        postEntries_reject_eq env2 tr2 n m now st hcond]
      exact ⟨rfl, rfl⟩
    · push_neg at hcond
      have h1 := postEntries_accept_resp_store env1 tr1 n m now st hcond.1 hcond.2
      have h2 := postEntries_accept_resp_store env2 tr2 n m now st hcond.1 hcond.2
      exact ⟨h1.1.trans h2.1.symm, h1.2.trans h2.2.symm⟩
  · intro hs
    simp [sendModerationMail, hs]
  · intro hn hm
    exact ⟨(postEntries_accept_resp_store env1 tr1 n m now st hn hm).1,
      postEntries_accept_mem env1 tr1 n m now st hn hm⟩

/-- Witness for C8: a throwing transport on a fully configured SMTP
environment still yields 200 with the new id. -/
theorem mail_failure_never_blocks_witness :
    (postEntries ⟨some "h", some "u", some "p"⟩ (Except.error "boom") (some "Al")
      (some "Hi") "t" ⟨[], 1⟩).1 = ⟨200, true, some 1, none⟩ :=
  ((mail_failure_never_blocks ⟨some "h", some "u", some "p"⟩ ⟨some "h", some "u", some "p"⟩
    (Except.error "boom") (Except.error "boom") (some "Al") (some "Hi") "t" ⟨[], 1⟩).2.2
    (by decide) (by decide)).1

/-- The five chained `replaceAll`s act characterwise as `escChar`. -/
lemma escapeHtml_data (s : String) : (escapeHtml s).data = s.data.flatMap escChar := by
  show ((((s.data.flatMap (fun c => if c = '&' then "&amp;".data else [c])).flatMap
      (fun c => if c = '<' then "&lt;".data else [c])).flatMap
      (fun c => if c = '>' then "&gt;".data else [c])).flatMap
      (fun c => if c = '"' then "&quot;".data else [c])).flatMap
      (fun c => if c = apos then "&#039;".data else [c]) = s.data.flatMap escChar
  induction s.data with
  | nil => rfl
  | cons c l ih =>
    simp only [List.flatMap_cons, List.flatMap_append]
    rw [ih]
    congr 1
    by_cases h1 : c = '&'
    · subst h1; decide
    by_cases h2 : c = '<'
    · subst h2; decide
    by_cases h3 : c = '>'
    · subst h3; decide
    by_cases h4 : c = '"'
    · subst h4; decide
    by_cases h5 : c = apos
    · subst h5; decide
    simp [escChar, h1, h2, h3, h4, h5]

/-- No escaped character produces a special character. -/
lemma escChar_no_specials (c : Char) :
    '<' ∉ escChar c ∧ '>' ∉ escChar c ∧ '"' ∉ escChar c ∧ apos ∉ escChar c := by
  by_cases h1 : c = '&'
  · subst h1; decide
  by_cases h2 : c = '<'
  · subst h2; decide
  by_cases h3 : c = '>'
  · subst h3; decide
  by_cases h4 : c = '"'
  · subst h4; decide
  by_cases h5 : c = apos
  · subst h5; decide
  simp only [escChar, if_neg h1, if_neg h2, if_neg h3, if_neg h4, if_neg h5,
    List.mem_singleton]
  exact ⟨fun hh => h2 hh.symm, fun hh => h3 hh.symm, fun hh => h4 hh.symm,
    fun hh => h5 hh.symm⟩

/-- The empty text trivially has all its ampersands entity-shaped. -/
lemma ampOk_nil : AmpOk [] := by
  intro xs ys hx
  exact absurd hx.symm (by simp)

/-- Prepending a non-ampersand character preserves `AmpOk`. -/
lemma ampOk_cons (c : Char) (hc : c ≠ '&') (l : List Char) (hl : AmpOk l) :
    AmpOk (c :: l) := by
  intro xs ys hx
  cases xs with
  | nil =>
    simp only [List.nil_append] at hx
    injection hx with hx1 _hx2
    exact absurd hx1 hc
  | cons a xs =>
    simp only [List.cons_append] at hx
    injection hx with _hx1 hx2
    exact hl xs ys hx2

/-- Prepending ampersand-free text preserves `AmpOk`. -/
lemma ampOk_append_left (t l : List Char) (h1 : ∀ c ∈ t, c ≠ '&') (hl : AmpOk l) :
    AmpOk (t ++ l) := by
  induction t with
  | nil => simpa using hl
  | cons a t ih =>
    simp only [List.cons_append]
    exact ampOk_cons a (h1 a (List.mem_cons_self a t)) _
      (ih (fun c hc => h1 c (List.mem_cons_of_mem a hc)))

/-- Prepending a full entity (`'&'` followed by an ampersand-free tail
that always realises `EntityTail`) preserves `AmpOk`. -/
lemma ampOk_block (t l : List Char) (h1 : ∀ c ∈ t, c ≠ '&')
    (h2 : ∀ l', EntityTail (t ++ l')) (hl : AmpOk l) : AmpOk ('&' :: (t ++ l)) := by
  intro xs ys hx
  cases xs with
  | nil =>
    simp only [List.nil_append] at hx
    injection hx with _hx1 hx2
    rw [← hx2]
    exact h2 l
  | cons a xs =>
    simp only [List.cons_append] at hx
    injection hx with _hx1 hx2
    exact ampOk_append_left t l h1 hl xs ys hx2

/-- Every ampersand in a characterwise-escaped text begins an entity. -/
lemma ampOk_flatMap_escChar (l : List Char) : AmpOk (l.flatMap escChar) := by
  induction l with
  | nil => simpa using ampOk_nil
  | cons c l ih =>
    simp only [List.flatMap_cons]
    by_cases h1 : c = '&'
    · subst h1
      have hc : escChar '&' = ['&', 'a', 'm', 'p', ';'] := by decide
      rw [hc]
      exact ampOk_block ['a', 'm', 'p', ';'] _ (by decide)
        (fun l' => Or.inl (List.prefix_append _ _)) ih
    by_cases h2 : c = '<'
    · subst h2
      have hc : escChar '<' = ['&', 'l', 't', ';'] := by decide
      rw [hc]
      exact ampOk_block ['l', 't', ';'] _ (by decide)
        (fun l' => Or.inr (Or.inl (List.prefix_append _ _))) ih
    by_cases h3 : c = '>'
    · subst h3
      have hc : escChar '>' = ['&', 'g', 't', ';'] := by decide
      rw [hc]
      exact ampOk_block ['g', 't', ';'] _ (by decide)
        (fun l' => Or.inr (Or.inr (Or.inl (List.prefix_append _ _)))) ih
    by_cases h4 : c = '"'
    · subst h4
      have hc : escChar '"' = ['&', 'q', 'u', 'o', 't', ';'] := by decide
      rw [hc]
      exact ampOk_block ['q', 'u', 'o', 't', ';'] _ (by decide)
        (fun l' => Or.inr (Or.inr (Or.inr (Or.inl (List.prefix_append _ _))))) ih
    by_cases h5 : c = apos
    · subst h5
      have hc : escChar apos = ['&', '#', '0', '3', '9', ';'] := by decide
      rw [hc]
      exact ampOk_block ['#', '0', '3', '9', ';'] _ (by decide)
        (fun l' => Or.inr (Or.inr (Or.inr (Or.inr (List.prefix_append _ _))))) ih
    have hc : escChar c = [c] := by simp [escChar, h1, h2, h3, h4, h5]
    rw [hc]
    exact ampOk_cons c h1 _ ih

/-- Claim C9: the notification body renders name, message and
created_at through `escapeHtml`, and `escapeHtml` maps every string to
one containing no `<`, `>`, `"` or `'`, in which every `&` begins one of
the entities `&amp; &lt; &gt; &quot; &#039;`. -/
theorem escapeHtml_escapes (s : String) :
    ('<' ∉ (escapeHtml s).data ∧ '>' ∉ (escapeHtml s).data ∧
      '"' ∉ (escapeHtml s).data ∧ apos ∉ (escapeHtml s).data) ∧
    AmpOk (escapeHtml s).data ∧
    (∀ name message created_at approve_url reject_url : String,
      buildMailHtml name message created_at approve_url reject_url =
        mailChunk1 ++ escapeHtml name ++ mailChunk2 ++ escapeHtml message ++
          mailChunk3 ++ escapeHtml created_at ++ mailChunk4 ++ approve_url ++
          mailChunk5 ++ reject_url ++ mailChunk6) := by
  refine ⟨?_, ?_, fun _ _ _ _ _ => rfl⟩
  · rw [escapeHtml_data]
    refine ⟨?_, ?_, ?_, ?_⟩ <;>
      · intro hmem
        obtain ⟨c, _hc, hin⟩ := List.mem_flatMap.mp hmem
        have := escChar_no_specials c
        tauto
  · rw [escapeHtml_data]
    exact ampOk_flatMap_escChar s.data

/-- Witness for C9 at a concrete string containing every special
character. -/
theorem escapeHtml_escapes_witness :
    AmpOk (escapeHtml (String.mk ['a', '<', 'b', '&', 'c', '>', '"', apos])).data :=
  (escapeHtml_escapes (String.mk ['a', '<', 'b', '&', 'c', '>', '"', apos])).2.1

/-- Claim C10: `cleanText` is not idempotent — for a 41-character name
whose 40th character after collapsing is a space, the stored value ends
in a space, and cleaning it again gives a different string. -/
theorem cleanText_not_idempotent :
    ((cleanText (some (String.mk (List.replicate 39 'a' ++ [' ', 'b']))) 40).data.getLast? =
      some ' ') ∧
    cleanText (some (cleanText (some (String.mk (List.replicate 39 'a' ++ [' ', 'b']))) 40))
        40 ≠
      cleanText (some (String.mk (List.replicate 39 'a' ++ [' ', 'b']))) 40 := by
  decide

end Guestbook
